import Mathlib

/-!
A verification development for the AUR metadata mirror (`aur-mirror-meta`).

The Rust sources (`aur_fetcher.rs`, `database.rs`, `supplement_fetcher.rs`,
`types.rs`) are shallowly embedded below: pure logic becomes Lean functions,
the SQLite store becomes explicit record states, network calls become
oracle parameters, and the panics/`Result`s of the Rust code become an
explicit outcome type.  Theorems at the end settle the specification claims
against this embedding.
-/

namespace AurMirrorMeta

/-! ## Association-list maps

`gix_hashtable::HashMap` / `std::collections::HashMap` are embedded as
association lists with unique-key discipline maintained by `insertRep`
(insert-or-replace) and `eraseKey` (remove).  Iteration order of the Rust
hash maps is unspecified; no theorem below depends on the order of a map's
entries. -/

def lookupKey [DecidableEq α] : List (α × β) → α → Option β
  | [], _ => none
  | (k, v) :: rest, a => if k = a then some v else lookupKey rest a

def eraseKey [DecidableEq α] (a : α) : List (α × β) → List (α × β)
  | [] => []
  | (k, v) :: rest => if k = a then eraseKey a rest else (k, v) :: eraseKey a rest

def insertRep [DecidableEq α] (k : α) (v : β) (m : List (α × β)) : List (α × β) :=
  (k, v) :: eraseKey k m

theorem lookupKey_eraseKey_self [DecidableEq α] (a : α) (m : List (α × β)) :
    lookupKey (eraseKey a m) a = none := by
  induction m with
  | nil => rfl
  | cons p rest ih =>
    obtain ⟨k, v⟩ := p
    by_cases h : k = a
    · simp [eraseKey, h, ih]
    · simp [eraseKey, h, lookupKey, ih]

theorem lookupKey_eraseKey_ne [DecidableEq α] (a b : α) (m : List (α × β)) (h : a ≠ b) :
    lookupKey (eraseKey a m) b = lookupKey m b := by
  induction m with
  | nil => rfl
  | cons p rest ih =>
    obtain ⟨k, v⟩ := p
    by_cases hk : k = a
    · subst hk
      simp [eraseKey, lookupKey, h, ih]
    · simp [eraseKey, hk, lookupKey, ih]

theorem lookupKey_insertRep [DecidableEq α] (k b : α) (v : β) (m : List (α × β)) :
    lookupKey (insertRep k v m) b = if k = b then some v else lookupKey m b := by
  by_cases h : k = b
  · simp [insertRep, lookupKey, h]
  · simp [insertRep, lookupKey, h, lookupKey_eraseKey_ne k b m h]

theorem lookupKey_append [DecidableEq α] (xs ys : List (α × β)) (b : α) :
    lookupKey (xs ++ ys) b =
      match lookupKey xs b with
      | some v => some v
      | none => lookupKey ys b := by
  induction xs with
  | nil => rfl
  | cons p rest ih =>
    obtain ⟨k, v⟩ := p
    by_cases h : k = b
    · simp [lookupKey, h]
    · simp [lookupKey, h, ih]

/-! ## Git object ids

`gix_hash::ObjectId` is a 20-byte SHA-1 digest; we embed it by its canonical
40-hex lowercase rendering.  `ObjectId::from_hex` accepts exactly 40
hexadecimal digits (either case) and canonicalizes. -/

abbrev ObjectId := String

def isHexDigitChar (c : Char) : Bool :=
  (('0' ≤ c) && (c ≤ '9')) || (('a' ≤ c) && (c ≤ 'f')) || (('A' ≤ c) && (c ≤ 'F'))

/-- ASCII lowering of an upper-case hex digit (hex parsing is ASCII-only). -/
def lowerHexChar (c : Char) : Char :=
  if ('A' ≤ c) && (c ≤ 'F') then Char.ofNat (c.toNat + 32) else c

def ObjectId.from_hex (s : String) : Option ObjectId :=
  if s.length = 40 && s.data.all isHexDigitChar then
    some (String.mk (s.data.map lowerHexChar))
  else none

/-! ## Harvester orchestrator (`fetch_srcinfo_batch`, aur_fetcher.rs 49-70)

The two network phases (`fetch_srcinfo_blob_ids_and_timestamps` and
`fetch_srcinfo_blobs`) are embedded as an oracle: each takes the wanted ids
and produces either the resulting map or a failure.  `fetch_srcinfo_batch`
itself is embedded step by step:

* the id conversion `commits.map(|c| ObjectId::from_hex(..).unwrap()).collect()`
  becomes `convertIds`, whose `none` result models the `unwrap` panic on a
  malformed id;
* the final `commit_ids.into_iter().map(move |commit_id| ...)` closure, which
  mutates the captured `blobs` map via `remove`, becomes the state-threading
  recursion `srcinfoOutputs`. -/

structure FetchedSrcInfo where
  srcinfo_text : String
  committed_at : Int
deriving DecidableEq, Repr

/-- Outcome of a Rust call: `Ok`, `Err` (an `anyhow::Error`, rendered as a
message), or a panic (`unwrap` on `None`/`Err`). -/
inductive RustOutcome (α : Type) where
  | ok : α → RustOutcome α
  | err : String → RustOutcome α
  | panicked : RustOutcome α
deriving DecidableEq

/-- `commits.map(|c| ObjectId::from_hex(c.as_ref().as_bytes()).unwrap()).collect()`:
the first malformed id panics (modelled as `none`) before anything else runs. -/
def convertIds : List String → Option (List ObjectId)
  | [] => some []
  | c :: cs =>
    match ObjectId.from_hex c with
    | none => none
    | some o =>
      match convertIds cs with
      | none => none
      | some os => some (o :: os)

/-- The per-commit output closure of `fetch_srcinfo_batch`, threading the
mutable `blobs` map: a hit in `commit_data` removes the blob from `blobs`
(`blobs.remove(blob_id).unwrap_or_default()`). -/
def srcinfoOutputs (commit_data : List (ObjectId × (ObjectId × Int))) :
    List ObjectId → List (ObjectId × String) → List (Option FetchedSrcInfo)
  | [], _ => []
  | c :: rest, blobs =>
    match lookupKey commit_data c with
    | none => none :: srcinfoOutputs commit_data rest blobs
    | some (blob_id, timestamp) =>
      some { srcinfo_text := (lookupKey blobs blob_id).getD "", committed_at := timestamp }
        :: srcinfoOutputs commit_data rest (eraseKey blob_id blobs)

/-- The state of the `blobs` map after the output closure has processed a
prefix of the commit ids: each hit removes its blob id. -/
def blobsAfter (commit_data : List (ObjectId × (ObjectId × Int)))
    (processed : List ObjectId) (blobs : List (ObjectId × String)) :
    List (ObjectId × String) :=
  processed.foldl
    (fun m c =>
      match lookupKey commit_data c with
      | none => m
      | some (blob_id, _) => eraseKey blob_id m)
    blobs

/-- Network oracle standing for the two POST round trips: Phase A
(`fetch_srcinfo_blob_ids_and_timestamps`) and Phase B (`fetch_srcinfo_blobs`). -/
structure FetchNetwork where
  phaseA : List ObjectId → RustOutcome (List (ObjectId × (ObjectId × Int)))
  phaseB : List ObjectId → RustOutcome (List (ObjectId × String))

/-- `AurFetcher::fetch_srcinfo_batch` (aur_fetcher.rs 49-70). -/
def fetch_srcinfo_batch (net : FetchNetwork) (commits : List String) :
    RustOutcome (List (Option FetchedSrcInfo)) :=
  match convertIds commits with
  | none => .panicked
  | some commit_ids =>
    match net.phaseA commit_ids with
    | .err e => .err e
    | .panicked => .panicked
    | .ok commit_data =>
      let blob_ids := commit_data.map (fun p => p.2.1)
      match net.phaseB blob_ids with
      | .err e => .err e
      | .panicked => .panicked
      | .ok blobs => .ok (srcinfoOutputs commit_data commit_ids blobs)

/-! ### Characterization lemmas for the batch output -/

theorem convertIds_length :
    ∀ {commits : List String} {ids : List ObjectId},
      convertIds commits = some ids → ids.length = commits.length := by
  intro commits
  induction commits with
  | nil => intro ids h; simp [convertIds] at h; simp [← h]
  | cons c cs ih =>
    intro ids h
    simp only [convertIds] at h
    cases hc : ObjectId.from_hex c with
    | none => rw [hc] at h; exact absurd h (by simp)
    | some o =>
      rw [hc] at h
      cases hcs : convertIds cs with
      | none => rw [hcs] at h; exact absurd h (by simp)
      | some os =>
        rw [hcs] at h
        cases h
        simp [ih hcs]

theorem convertIds_none_of_malformed {commits : List String} {c : String}
    (hc : c ∈ commits) (hbad : ObjectId.from_hex c = none) :
    convertIds commits = none := by
  induction commits with
  | nil => cases hc
  | cons d ds ih =>
    rcases List.mem_cons.mp hc with h | h
    · subst h; simp [convertIds, hbad]
    · simp only [convertIds]
      cases hd : ObjectId.from_hex d with
      | none => rfl
      | some o => simp [ih h]

theorem srcinfoOutputs_length (commit_data : List (ObjectId × (ObjectId × Int))) :
    ∀ (ids : List ObjectId) (blobs : List (ObjectId × String)),
      (srcinfoOutputs commit_data ids blobs).length = ids.length := by
  intro ids
  induction ids with
  | nil => intro blobs; rfl
  | cons c rest ih =>
    intro blobs
    simp only [srcinfoOutputs]
    cases lookupKey commit_data c with
    | none => simp [ih]
    | some p => simp [ih]

theorem srcinfoOutputs_get? (commit_data : List (ObjectId × (ObjectId × Int))) :
    ∀ (ids : List ObjectId) (blobs : List (ObjectId × String)) (i : Nat) (c : ObjectId),
      ids.get? i = some c →
      (srcinfoOutputs commit_data ids blobs).get? i =
        some ((lookupKey commit_data c).map (fun p =>
          { srcinfo_text := (lookupKey (blobsAfter commit_data (ids.take i) blobs) p.1).getD ""
            committed_at := p.2 })) := by
  intro ids
  induction ids with
  | nil => intro blobs i c h; simp at h
  | cons c0 rest ih =>
    intro blobs i c h
    match i with
    | 0 =>
      simp only [List.get?] at h
      cases h
      cases hc : lookupKey commit_data c0 <;>
        simp [srcinfoOutputs, blobsAfter, hc]
    | Nat.succ j =>
      simp only [List.get?] at h
      have hstep : blobsAfter commit_data ((c0 :: rest).take (j + 1)) blobs =
          blobsAfter commit_data (rest.take j)
            (match lookupKey commit_data c0 with
             | none => blobs
             | some p => eraseKey p.1 blobs) := by
        simp only [List.take_succ_cons, blobsAfter, List.foldl_cons]
        cases lookupKey commit_data c0 with
        | none => rfl
        | some p => rfl
      simp only [srcinfoOutputs]
      cases hc0 : lookupKey commit_data c0 with
      | none =>
        simp only [List.get?]
        rw [ih blobs j c h, hstep, hc0]
      | some p =>
        simp only [List.get?]
        rw [ih (eraseKey p.1 blobs) j c h, hstep, hc0]

theorem blobsAfter_lookup_none (commit_data : List (ObjectId × (ObjectId × Int))) (b : ObjectId) :
    ∀ (pre : List ObjectId) (blobs : List (ObjectId × String)),
      lookupKey blobs b = none →
      lookupKey (blobsAfter commit_data pre blobs) b = none := by
  intro pre
  induction pre with
  | nil => intro blobs h; exact h
  | cons c0 rest ih =>
    intro blobs h
    simp only [blobsAfter, List.foldl_cons]
    cases hc0 : lookupKey commit_data c0 with
    | none => exact ih blobs h
    | some p =>
      apply ih
      by_cases hb : p.1 = b
      · subst hb; exact lookupKey_eraseKey_self p.1 blobs
      · rw [lookupKey_eraseKey_ne p.1 b blobs hb]; exact h

theorem blobsAfter_erased (commit_data : List (ObjectId × (ObjectId × Int))) (b : ObjectId) :
    ∀ (pre : List ObjectId) (blobs : List (ObjectId × String)),
      (∃ c ∈ pre, ∃ ts, lookupKey commit_data c = some (b, ts)) →
      lookupKey (blobsAfter commit_data pre blobs) b = none := by
  intro pre
  induction pre with
  | nil => intro blobs h; rcases h with ⟨c, hc, _⟩; cases hc
  | cons c0 rest ih =>
    intro blobs h
    rcases h with ⟨c, hc, ts, hcd⟩
    rcases List.mem_cons.mp hc with rfl | hmem
    · simp only [blobsAfter, List.foldl_cons, hcd]
      exact blobsAfter_lookup_none commit_data b rest _ (lookupKey_eraseKey_self b blobs)
    · simp only [blobsAfter, List.foldl_cons]
      cases lookupKey commit_data c0 with
      | none => exact ih blobs ⟨c, hmem, ts, hcd⟩
      | some p => exact ih _ ⟨c, hmem, ts, hcd⟩

/-! ### Concrete fixtures for the fetcher witnesses -/

def exCommitA : String := "aaaaaaaaaaaaaaaaaaaaaaaaaaaaaaaaaaaaaaaa"

def exCommitB : String := "bbbbbbbbbbbbbbbbbbbbbbbbbbbbbbbbbbbbbbbb"

def exCommitC : String := "cccccccccccccccccccccccccccccccccccccccc"

def exBlob1 : String := "dddddddddddddddddddddddddddddddddddddddd"

def exCommitData : List (ObjectId × (ObjectId × Int)) :=
  [(exCommitA, (exBlob1, 5)), (exCommitC, (exBlob1, 7))]

def exBlobs : List (ObjectId × String) := [(exBlob1, "pkgname = foo")]

def oracleNet : FetchNetwork :=
  { phaseA := fun _ => .ok exCommitData
    phaseB := fun _ => .ok exBlobs }

def exOut : List (Option FetchedSrcInfo) :=
  srcinfoOutputs exCommitData [exCommitA, exCommitB, exCommitC] exBlobs

/-! ### Claims C2, C7, C9 -/

/-- C2: For every input sequence of commit ids, `fetch_srcinfo_batch` returns a
sequence of the same length whose entry at each index corresponds to the input
commit id at that index: the entry is `None` when the commit id is absent from
the Phase A commit-to-blob map, and otherwise `Some` of a record whose
`committed_at` is the timestamp from Phase A and whose text is the Phase B blob
content removed from the blob map (`blobsAfter` is the blob map as already
depleted by the earlier entries), defaulting to the empty string when the blob
id is no longer present in that map. -/
theorem c2_fetch_srcinfo_batch_alignment
    (net : FetchNetwork) (commits : List String) (commit_ids : List ObjectId)
    (commit_data : List (ObjectId × (ObjectId × Int))) (blobs : List (ObjectId × String))
    (out : List (Option FetchedSrcInfo)) (i : Nat) (c : ObjectId)
    (hconv : convertIds commits = some commit_ids)
    (hA : net.phaseA commit_ids = .ok commit_data)
    (hB : net.phaseB (commit_data.map (fun p => p.2.1)) = .ok blobs)
    (hout : fetch_srcinfo_batch net commits = .ok out)
    (hi : commit_ids.get? i = some c) :
    out.length = commits.length ∧
    out.get? i = some ((lookupKey commit_data c).map (fun p =>
      { srcinfo_text := (lookupKey (blobsAfter commit_data (commit_ids.take i) blobs) p.1).getD ""
        committed_at := p.2 })) := by
  have hsrc : out = srcinfoOutputs commit_data commit_ids blobs := by
    simp only [fetch_srcinfo_batch, hconv, hA, hB] at hout
    exact (RustOutcome.ok.injEq _ _).mp hout.symm
  subst hsrc
  constructor
  · rw [srcinfoOutputs_length, convertIds_length hconv]
  · exact srcinfoOutputs_get? commit_data commit_ids blobs i c hi

/-- C2 witness: the alignment theorem evaluated on a concrete three-commit
batch, at index 2 (a commit whose blob was already consumed by index 0). -/
theorem c2_fetch_srcinfo_batch_alignment_witness :
    ([exCommitA, exCommitB, exCommitC].get? 2 = some exCommitC) ∧
    exOut.length = 3 ∧
    exOut.get? 2 = some ((lookupKey exCommitData exCommitC).map (fun p =>
      { srcinfo_text :=
          (lookupKey (blobsAfter exCommitData ([exCommitA, exCommitB, exCommitC].take 2) exBlobs)
            p.1).getD ""
        committed_at := p.2 })) :=
  ⟨rfl,
    c2_fetch_srcinfo_batch_alignment oracleNet [exCommitA, exCommitB, exCommitC]
      [exCommitA, exCommitB, exCommitC] exCommitData exBlobs exOut 2 exCommitC
      (by decide) rfl rfl (by decide) rfl⟩

/-- C7 counterexample: the claim says a malformed input id makes
`fetch_srcinfo_batch` abort "by returning an error rather than by any other
means of aborting".  On the code, `ObjectId::from_hex(..).unwrap()`
(aur_fetcher.rs line 54) panics instead: the outcome is `panicked`, which is a
different constructor from every `err _`, so no error value is returned. -/
theorem c7_malformed_id_counterexample :
    fetch_srcinfo_batch oracleNet ["not-a-hex-id"] = RustOutcome.panicked := by
  rfl

/-- C7 amended: for every input to `fetch_srcinfo_batch` containing a string
that is not a well-formed 40-hex object id, the operation aborts eagerly,
before performing any network I/O (the outcome is the same for every network
oracle `net`), but it does so by panicking (`unwrap` on the failed hex
conversion), not by returning an error. -/
theorem c7_malformed_id_panics_before_network
    (net : FetchNetwork) (commits : List String) (c : String)
    (hc : c ∈ commits) (hbad : ObjectId.from_hex c = none) :
    fetch_srcinfo_batch net commits = RustOutcome.panicked := by
  simp [fetch_srcinfo_batch, convertIds_none_of_malformed hc hbad]

/-- C7 witness: the amended theorem at a concrete malformed id. -/
theorem c7_malformed_id_panics_before_network_witness :
    ("zz" ∈ ["zz", exCommitA] ∧ ObjectId.from_hex "zz" = none) ∧
    fetch_srcinfo_batch oracleNet ["zz", exCommitA] = RustOutcome.panicked :=
  ⟨⟨by decide, by rfl⟩,
    c7_malformed_id_panics_before_network oracleNet ["zz", exCommitA] "zz" (by decide) (by rfl)⟩

/-- C9: when two entries of `fetch_srcinfo_batch`'s output refer to the same
`.SRCINFO` blob id (same commit twice, or two commits resolving to the same
blob), only the first entry produced receives the blob's text; every later
entry sharing that blob id receives the empty string, because
`blobs.remove(blob_id)` deletes the map entry on first use. -/
theorem c9_shared_blob_text_consumed_once
    (net : FetchNetwork) (commits : List String) (commit_ids : List ObjectId)
    (commit_data : List (ObjectId × (ObjectId × Int))) (blobs : List (ObjectId × String))
    (out : List (Option FetchedSrcInfo)) (i j : Nat) (ci cj b : ObjectId) (tsi tsj : Int)
    (hconv : convertIds commits = some commit_ids)
    (hA : net.phaseA commit_ids = .ok commit_data)
    (hB : net.phaseB (commit_data.map (fun p => p.2.1)) = .ok blobs)
    (hout : fetch_srcinfo_batch net commits = .ok out)
    (hij : i < j)
    (hi : commit_ids.get? i = some ci) (hj : commit_ids.get? j = some cj)
    (hci : lookupKey commit_data ci = some (b, tsi))
    (hcj : lookupKey commit_data cj = some (b, tsj)) :
    out.get? j = some (some { srcinfo_text := "", committed_at := tsj }) := by
  have hsrc : out = srcinfoOutputs commit_data commit_ids blobs := by
    simp only [fetch_srcinfo_batch, hconv, hA, hB] at hout
    exact (RustOutcome.ok.injEq _ _).mp hout.symm
  subst hsrc
  rw [srcinfoOutputs_get? commit_data commit_ids blobs j cj hj, hcj]
  have hmem : ci ∈ commit_ids.take j := by
    apply List.get?_mem (n := i)
    rwa [List.get?_take hij]
  have hnone : lookupKey (blobsAfter commit_data (commit_ids.take j) blobs) b = none :=
    blobsAfter_erased commit_data b (commit_ids.take j) blobs ⟨ci, hmem, tsi, hci⟩
  simp [hnone]

/-- C9 witness: on the concrete fixture, commits `exCommitA` (index 0) and
`exCommitC` (index 2) both resolve to blob `exBlob1`; the index-2 entry gets
the empty string. -/
theorem c9_shared_blob_text_consumed_once_witness :
    (lookupKey exCommitData exCommitA = some (exBlob1, 5) ∧
     lookupKey exCommitData exCommitC = some (exBlob1, 7)) ∧
    exOut.get? 2 = some (some { srcinfo_text := "", committed_at := 7 }) :=
  ⟨⟨by decide, by decide⟩,
    c9_shared_blob_text_consumed_once oracleNet [exCommitA, exCommitB, exCommitC]
      [exCommitA, exCommitB, exCommitC] exCommitData exBlobs exOut 0 2
      exCommitA exCommitC exBlob1 5 7 (by decide) rfl rfl (by decide) (by decide) rfl rfl
      (by decide) (by decide)⟩

/-! ## Branch enumerator (`fetch_branch_list`, aur_fetcher.rs 170-209)

The GET advertise-refs response is a sequence of packet lines delimited by
flushes (`StreamingPeekableIter` with `&[PacketLineRef::Flush]`).  A packet is
embedded as a UTF-8 data line (`data`, the payload including any trailing LF),
a non-UTF-8 data line (`binary`, which the parser skips via the
`str::from_utf8(..).ok()` / `continue` path), or a flush.

The parser first drains lines until `read_line` yields `None` (the first
flush, or end of stream), calls `reset`, then reads lines until the next
`None`.  Each line is split at the first occurrence of `" refs/heads/"`; the
part after it, with trailing whitespace trimmed (`trim_end`), is the branch
name, inserted into the `HashMap` unless it equals `"main"`. -/

inductive RefPkt where
  | data (payload : String)
  | binary
  | flush
deriving DecidableEq

def dropThroughFirstFlush : List RefPkt → List RefPkt
  | [] => []
  | .flush :: rest => rest
  | .data _ :: rest => dropThroughFirstFlush rest
  | .binary :: rest => dropThroughFirstFlush rest

def takeUntilFlush : List RefPkt → List RefPkt
  | [] => []
  | .flush :: _ => []
  | .data s :: rest => .data s :: takeUntilFlush rest
  | .binary :: rest => .binary :: takeUntilFlush rest

/-- Rust `char::is_whitespace` (the Unicode `White_Space` property). -/
def rustIsWhitespace (c : Char) : Bool :=
  c = ' ' || c = '\t' || c = '\n' || c = Char.ofNat 0x0B || c = Char.ofNat 0x0C || c = '\r' ||
  c = Char.ofNat 0x85 || c = Char.ofNat 0xA0 || c = Char.ofNat 0x1680 ||
  ((Char.ofNat 0x2000 ≤ c) && (c ≤ Char.ofNat 0x200A)) ||
  c = Char.ofNat 0x2028 || c = Char.ofNat 0x2029 || c = Char.ofNat 0x202F ||
  c = Char.ofNat 0x205F || c = Char.ofNat 0x3000

/-- Rust `str::trim_end`. -/
def trimEndRust (s : String) : String :=
  String.mk ((s.data.reverse.dropWhile rustIsWhitespace).reverse)

/-- Split a character list at the first occurrence of `sep` (Rust
`str::split_once` for a nonempty literal separator). -/
def splitOnceList (sep : List Char) : List Char → Option (List Char × List Char)
  | [] => none
  | c :: rest =>
    if List.isPrefixOf sep (c :: rest) then some ([], (c :: rest).drop sep.length)
    else
      match splitOnceList sep rest with
      | none => none
      | some (a, b) => some (c :: a, b)

def splitOnceStr (s sep : String) : Option (String × String) :=
  (splitOnceList sep.data s.data).map (fun p => (String.mk p.1, String.mk p.2))

/-- The body of the ref-line loop: `line.split_once(" refs/heads/")`, trim the
branch name's end, and drop the aggregate branch `"main"`. -/
def branchLineEntry (s : String) : Option (String × String) :=
  match splitOnceStr s " refs/heads/" with
  | none => none
  | some (commit_id, branch_raw) =>
    let branch_name := trimEndRust branch_raw
    if branch_name = "main" then none else some (branch_name, commit_id)

def branchFold (branches : List (String × String)) (l : RefPkt) : List (String × String) :=
  match l with
  | .data s =>
    match branchLineEntry s with
    | some (b, c) => insertRep b c branches
    | none => branches
  | _ => branches

/-- `AurFetcher::fetch_branch_list` (aur_fetcher.rs 170-209), as a function of
the packet-line stream of the advertise-refs response. -/
def fetch_branch_list (stream : List RefPkt) : List (String × String) :=
  (takeUntilFlush (dropThroughFirstFlush stream)).foldl branchFold []

/-- The declarative entry list: one `(branch, commit)` pair per qualifying
line of the post-flush window, in stream order. -/
def branchEntriesOf (stream : List RefPkt) : List (String × String) :=
  (takeUntilFlush (dropThroughFirstFlush stream)).filterMap
    (fun l =>
      match l with
      | .data s => branchLineEntry s
      | _ => none)

theorem lookupKey_foldl_insertRep (entries : List (String × String)) :
    ∀ (m0 : List (String × String)) (b : String),
      lookupKey (entries.foldl (fun m p => insertRep p.1 p.2 m) m0) b =
        match lookupKey entries.reverse b with
        | some v => some v
        | none => lookupKey m0 b := by
  induction entries with
  | nil => intro m0 b; simp [lookupKey]
  | cons p rest ih =>
    intro m0 b
    obtain ⟨k, v⟩ := p
    simp only [List.foldl_cons, List.reverse_cons]
    rw [ih, lookupKey_append, lookupKey_insertRep]
    cases lookupKey rest.reverse b with
    | some w => rfl
    | none =>
      by_cases h : k = b
      · simp [lookupKey, h]
      · simp [lookupKey, h]

theorem foldl_branchFold_eq (lines : List RefPkt) :
    ∀ (m0 : List (String × String)),
      lines.foldl branchFold m0 =
        (lines.filterMap (fun l =>
          match l with
          | RefPkt.data s => branchLineEntry s
          | _ => none)).foldl (fun m p => insertRep p.1 p.2 m) m0 := by
  induction lines with
  | nil => intro m0; rfl
  | cons l rest ih =>
    intro m0
    cases l with
    | data s =>
      simp only [List.foldl_cons, List.filterMap_cons]
      cases he : branchLineEntry s with
      | none => simp only [branchFold, he]; exact ih m0
      | some p => simp only [branchFold, he, List.foldl_cons]; exact ih _
    | binary => simp only [List.foldl_cons, List.filterMap_cons]; exact ih m0
    | flush => simp only [List.foldl_cons, List.filterMap_cons]; exact ih m0

/-- Rust `str::trim` (whitespace removed from both ends). -/
def trimRust (s : String) : String :=
  String.mk (((s.data.dropWhile rustIsWhitespace).reverse.dropWhile rustIsWhitespace).reverse)

/-- Modelled from the spec claim wording only (for comparison, not from the
source): a line "of the shape `<40-hex> refs/heads/<branch>`
(whitespace-trimmed)" — after trimming, the text before the first
`" refs/heads/"` is exactly 40 hexadecimal digits. -/
def claimShapedRefLine (s : String) : Bool :=
  match splitOnceStr (trimRust s) " refs/heads/" with
  | some (commit_id, _) => (commit_id.length = 40) && commit_id.data.all isHexDigitChar
  | none => false

def exRefStream : List RefPkt :=
  [.data "# service=git-upload-pack", .flush,
   .data "zz refs/heads/foo\n",
   .data (exCommitA ++ " refs/heads/main\n")]

/-- C5 counterexample: the claim says the branch map contains exactly one
entry per line of the shape `<40-hex> refs/heads/<branch>`.  On the code, the
commit-id side is never validated: the post-flush line
`"zz refs/heads/foo\n"` is not of that shape, yet `fetch_branch_list` maps
`"foo"` to `"zz"` (and excludes `main`), so an entry arises from a non-shaped
line. -/
theorem c5_branch_list_counterexample :
    fetch_branch_list exRefStream = [("foo", "zz")] ∧
    claimShapedRefLine "zz refs/heads/foo\n" = false := by
  constructor
  · rfl
  · rfl

/-- C5 amended: `fetch_branch_list` skips every packet-line up to and
including the first flush; from the remaining lines up to the next flush (or
end of stream) it builds a map with one entry per UTF-8 line containing
`" refs/heads/"`: the text after the first occurrence, trailing-whitespace
trimmed, is the branch name, mapped to the (unvalidated) text before the
occurrence, except that branch `"main"` contributes no entry; on duplicate
branch names the last line wins.  Formally: looking up any branch in the
result equals looking it up in the reversed declarative entry list. -/
theorem c5_branch_list_entries (stream : List RefPkt) (b : String) :
    lookupKey (fetch_branch_list stream) b =
      lookupKey (branchEntriesOf stream).reverse b := by
  unfold fetch_branch_list branchEntriesOf
  rw [foldl_branchFold_eq, lookupKey_foldl_insertRep]
  cases lookupKey (List.filterMap _ (takeUntilFlush (dropThroughFirstFlush stream))).reverse b with
  | some v => rfl
  | none => rfl

/-! ## Fetch-response demultiplexing (`read_packfile_from_fetch_response`,
aur_fetcher.rs 212-257)

The POST fetch response is a packet-line stream whose stop packets (flush
`0000` and delimiter `0001`, both configured as delimiters of the
`StreamingPeekableIter`) partition it into sections.  A stop packet is
embedded as `flush`; a data line as `line` with its raw payload (a section
header like `"packfile\n"`, or inside the packfile section a sideband line
whose first byte is the channel tag).

The loop reads a header line (`None` — a stop packet or end of stream — is
the `"Missing section header"` error), trims it, and on anything but
`"packfile"` drains lines through the next stop packet and resumes.  In the
packfile section, `as_read_with_sidebands` feeds channel-1 payloads to the
destination, ignores channel-2 progress, and interrupts on channel-3
(`ProgressAction::Interrupt`), failing the copy; the section ends at a stop
packet or end of stream. -/

inductive FetchPkt where
  | line (payload : String)
  | flush
deriving DecidableEq

inductive FetchErr where
  | missingSectionHeader
  | upstreamError
  | wireFraming
deriving DecidableEq

def dropThroughFlushF : List FetchPkt → List FetchPkt
  | [] => []
  | .flush :: rest => rest
  | .line _ :: rest => dropThroughFlushF rest

theorem dropThroughFlushF_length_le (l : List FetchPkt) :
    (dropThroughFlushF l).length ≤ l.length := by
  induction l with
  | nil => simp [dropThroughFlushF]
  | cons x rest ih =>
    cases x with
    | flush => simp [dropThroughFlushF]
    | line s =>
      simp only [dropThroughFlushF, List.length_cons]
      exact Nat.le_succ_of_le ih

theorem mem_dropThroughFlushF {x : FetchPkt} :
    ∀ {l : List FetchPkt}, x ∈ dropThroughFlushF l → x ∈ l := by
  intro l
  induction l with
  | nil => intro h; exact h
  | cons y rest ih =>
    cases y with
    | flush => intro h; exact List.mem_cons_of_mem _ h
    | line s => intro h; exact List.mem_cons_of_mem _ (ih h)

/-- Concatenation of the pack-data chunks written to the destination. -/
def joinAll : List String → String
  | [] => ""
  | d :: ds => d ++ joinAll ds

/-- The sideband copy inside the packfile section (`futures::io::copy` over
`as_read_with_sidebands`): channel 1 appends to the destination, channel 2 is
progress, channel 3 interrupts; a stop packet or end of stream ends the copy. -/
def copySidebands : List FetchPkt → Except FetchErr String
  | [] => .ok ""
  | .flush :: _ => .ok ""
  | .line s :: rest =>
    match s.data with
    | [] => .error .wireFraming
    | c :: payload =>
      if c.toNat = 1 then
        match copySidebands rest with
        | .error e => .error e
        | .ok tail => .ok (String.mk payload ++ tail)
      else if c.toNat = 2 then copySidebands rest
      else if c.toNat = 3 then .error .upstreamError
      else .error .wireFraming

/-- `read_packfile_from_fetch_response` (aur_fetcher.rs 212-257). -/
def read_packfile_from_fetch_response : List FetchPkt → Except FetchErr String
  | [] => .error .missingSectionHeader
  | .flush :: _ => .error .missingSectionHeader
  | .line s :: rest =>
    if trimRust s = "packfile" then copySidebands rest
    else read_packfile_from_fetch_response (dropThroughFlushF rest)
termination_by l => l.length
decreasing_by
  simp only [List.length_cons]
  exact Nat.lt_succ_of_le (dropThroughFlushF_length_le rest)

/-- A sideband line on channel `n` with the given payload. -/
def mkBand (n : Nat) (payload : String) : FetchPkt :=
  .line (String.mk (Char.ofNat n :: payload.data))

theorem dropThroughFlushF_append {body rest : List FetchPkt}
    (h : ∀ x ∈ body, x ≠ FetchPkt.flush) :
    dropThroughFlushF (body ++ FetchPkt.flush :: rest) = rest := by
  induction body with
  | nil => rfl
  | cons x b ih =>
    cases x with
    | flush => exact absurd rfl (h _ (List.mem_cons_self _ _))
    | line s =>
      simp only [List.cons_append, dropThroughFlushF]
      exact ih (fun y hy => h y (List.mem_cons_of_mem _ hy))

theorem charToNat_one : (Char.ofNat 1).toNat = 1 := by decide

theorem charToNat_two : (Char.ofNat 2).toNat = 2 := by decide

theorem charToNat_three : (Char.ofNat 3).toNat = 3 := by decide

theorem copySidebands_band1 (ds : List String) (rest : List FetchPkt) :
    copySidebands (ds.map (mkBand 1) ++ FetchPkt.flush :: rest) = .ok (joinAll ds) := by
  induction ds with
  | nil => rfl
  | cons d ds ih =>
    simp only [List.map_cons, List.cons_append, copySidebands, mkBand, joinAll,
      List.append_eq, charToNat_one, if_pos]
    rw [ih]

theorem copySidebands_band3 (msg : String) (rest : List FetchPkt) :
    ∀ (pre : List FetchPkt),
      (∀ x ∈ pre, ∃ d, x = mkBand 1 d ∨ x = mkBand 2 d) →
      copySidebands (pre ++ mkBand 3 msg :: rest) = .error .upstreamError := by
  intro pre
  induction pre with
  | nil => intro _; rfl
  | cons x p ih =>
    intro h
    obtain ⟨d, hd | hd⟩ := h x (List.mem_cons_self _ _) <;> subst hd
    · simp only [List.cons_append, copySidebands, mkBand, List.append_eq,
        charToNat_one, if_pos]
      simp only [mkBand] at ih
      rw [ih (fun y hy => h y (List.mem_cons_of_mem _ hy))]
    · simp only [List.cons_append, copySidebands, mkBand, List.append_eq,
        charToNat_two, if_true]
      simp only [mkBand] at ih
      exact ih (fun y hy => h y (List.mem_cons_of_mem _ hy))

theorem read_packfile_no_header :
    ∀ (n : Nat) (stream : List FetchPkt), stream.length ≤ n →
      (∀ s, FetchPkt.line s ∈ stream → trimRust s ≠ "packfile") →
      read_packfile_from_fetch_response stream = .error .missingSectionHeader := by
  intro n
  induction n with
  | zero =>
    intro stream hlen _
    have : stream = [] := List.eq_nil_of_length_eq_zero (Nat.le_zero.mp hlen)
    subst this
    simp [read_packfile_from_fetch_response]
  | succ n ih =>
    intro stream hlen hno
    match stream with
    | [] => simp [read_packfile_from_fetch_response]
    | .flush :: rest => simp [read_packfile_from_fetch_response]
    | .line s :: rest =>
      have hs : trimRust s ≠ "packfile" := hno s (List.mem_cons_self _ _)
      simp only [read_packfile_from_fetch_response]
      rw [if_neg hs]
      apply ih
      · calc (dropThroughFlushF rest).length ≤ rest.length := dropThroughFlushF_length_le rest
          _ ≤ n := Nat.le_of_succ_le_succ hlen
      · intro t ht
        exact hno t (List.mem_cons_of_mem _ (mem_dropThroughFlushF ht))

/-- C6: when reading a fetch response, (i) a section whose (trimmed) header
line is not `"packfile"` is skipped in full — its flush-free body is drained
through the next flush and reading resumes at the following section; (ii) the
sideband-1 payloads of the packfile section are copied, concatenated, to the
destination; (iii) a stream with no packfile section header yields the
`"Missing section header"` error at end of stream; (iv) a sideband-3 line
inside the packfile section interrupts the copy and fails the operation. -/
theorem c6_read_packfile_sections
    (hdr phdr phdr2 msg : String)
    (skipBody pre rest rest2 rest3 stream : List FetchPkt) (ds : List String)
    (hhdr : trimRust hdr ≠ "packfile")
    (hskip : ∀ x ∈ skipBody, x ≠ FetchPkt.flush)
    (hph : trimRust phdr = "packfile")
    (hph2 : trimRust phdr2 = "packfile")
    (hnohdr : ∀ s, FetchPkt.line s ∈ stream → trimRust s ≠ "packfile")
    (hpre : ∀ x ∈ pre, ∃ d, x = mkBand 1 d ∨ x = mkBand 2 d) :
    read_packfile_from_fetch_response
        (FetchPkt.line hdr :: (skipBody ++ FetchPkt.flush :: rest))
      = read_packfile_from_fetch_response rest ∧
    read_packfile_from_fetch_response
        (FetchPkt.line phdr :: (ds.map (mkBand 1) ++ FetchPkt.flush :: rest2))
      = .ok (joinAll ds) ∧
    read_packfile_from_fetch_response stream = .error .missingSectionHeader ∧
    read_packfile_from_fetch_response
        (FetchPkt.line phdr2 :: (pre ++ mkBand 3 msg :: rest3))
      = .error .upstreamError := by
  refine ⟨?_, ?_, ?_, ?_⟩
  · simp only [read_packfile_from_fetch_response]
    rw [if_neg hhdr, dropThroughFlushF_append hskip]
  · simp only [read_packfile_from_fetch_response]
    rw [if_pos hph, copySidebands_band1]
  · exact read_packfile_no_header stream.length stream (Nat.le_refl _) hnohdr
  · simp only [read_packfile_from_fetch_response]
    rw [if_pos hph2, copySidebands_band3 msg rest3 pre hpre]

def exRestStream : List FetchPkt :=
  [.line "packfile\n", mkBand 1 "PACK", .flush]

/-- C6 witness: the section theorem evaluated on concrete streams — an
`acknowledgments` section is skipped; two data chunks are concatenated; a
stream with no packfile header errors; an `"ERR upload-pack: not our ref"`
sideband-3 line fails the copy. -/
theorem c6_read_packfile_sections_witness :
    read_packfile_from_fetch_response
        (FetchPkt.line "acknowledgments\n" ::
          ([FetchPkt.line "ACK 0123\n"] ++ FetchPkt.flush :: exRestStream))
      = read_packfile_from_fetch_response exRestStream ∧
    read_packfile_from_fetch_response
        (FetchPkt.line "packfile\n" ::
          (["PACKabc", "def"].map (mkBand 1) ++ FetchPkt.flush :: []))
      = .ok (joinAll ["PACKabc", "def"]) ∧
    read_packfile_from_fetch_response [FetchPkt.line "acknowledgments\n", FetchPkt.flush]
      = .error .missingSectionHeader ∧
    read_packfile_from_fetch_response
        (FetchPkt.line "packfile\n" ::
          ([mkBand 1 "PACK", mkBand 2 "progress"]
            ++ mkBand 3 "ERR upload-pack: not our ref" :: []))
      = .error .upstreamError :=
  c6_read_packfile_sections "acknowledgments\n" "packfile\n" "packfile\n"
    "ERR upload-pack: not our ref"
    [FetchPkt.line "ACK 0123\n"] [mkBand 1 "PACK", mkBand 2 "progress"]
    exRestStream [] [] [FetchPkt.line "acknowledgments\n", FetchPkt.flush]
    ["PACKabc", "def"]
    (by decide) (by decide) (by decide) (by decide)
    (by
      intro s hs
      simp only [List.mem_cons, List.not_mem_nil, or_false] at hs
      rcases hs with hs | hs
      · cases hs; decide
      · cases hs)
    (by
      intro x hx
      simp only [List.mem_cons, List.not_mem_nil, or_false] at hx
      rcases hx with rfl | rfl
      · exact ⟨"PACK", Or.inl rfl⟩
      · exact ⟨"progress", Or.inr rfl⟩)

/-! ## Index store (database.rs, types.rs)

The SQLite store is embedded as explicit record states.  Row types mirror the
schema of `init_index_tables` (database.rs 93-202) and the structs of
types.rs.  The `f64` column `popularity` is never computed with — only
carried — so the embedding is polymorphic in its value type `P` (floating
point itself is not modelled).  `co_maintainers`/`keywords` are TEXT columns
holding `serde_json::to_string` of a string list; the embedding carries the
list and treats the serialize/deserialize round trip as the identity. -/

structure PkgInfoRow where
  branch : String
  pkg_name : String
  pkg_desc : Option String
  version : String
  url : Option String
  commit_id : String
  is_listed : Int
  committed_at : Option Int
deriving DecidableEq, Repr

/-- `DatabaseSupplementData` (types.rs 183-196); also the shape of a
`pkg_supplement` row. -/
structure DatabaseSupplementData (P : Type) where
  pkgname : String
  version : String
  popularity : P
  num_votes : Int
  out_of_date : Option Int
  maintainer : Option String
  submitter : Option String
  co_maintainers : List String
  keywords : List String
  first_submitted : Int
  last_modified : Int
deriving DecidableEq

/-- A row of one of the eight relation tables (branch, pkg_name, value). -/
structure RelRow where
  branch : String
  pkg_name : String
  value : String
deriving DecidableEq, Repr

structure Db (P : Type) where
  branch_commits : List (String × String)
  pkg_info : List PkgInfoRow
  pkg_depends : List RelRow
  pkg_make_depends : List RelRow
  pkg_opt_depends : List RelRow
  pkg_check_depends : List RelRow
  pkg_provides : List RelRow
  pkg_conflicts : List RelRow
  pkg_replaces : List RelRow
  pkg_groups : List RelRow
  pkg_supplement : List (DatabaseSupplementData P)
deriving DecidableEq

/-- A SQL value as seen by the sqlx row accessors.  `jsonList l` is a TEXT
value holding the JSON serialization of `l`. -/
inductive SqlValue (P : Type) where
  | null
  | int (i : Int)
  | text (s : String)
  | real (x : P)
  | jsonList (l : List String)
deriving DecidableEq

def optTextVal {P : Type} : Option String → SqlValue P
  | none => .null
  | some s => .text s

def optIntVal {P : Type} : Option Int → SqlValue P
  | none => .null
  | some i => .int i

/-- `row.try_get::<i64>(name).ok()`, and equally
`row.try_get::<Option<i64>>(name).ok().flatten()`: `some i` exactly when the
named column exists and holds an integer (a missing column is a decode error,
a NULL decodes to `None` and is flattened away). -/
def tryGetInt {P : Type} [DecidableEq P] (cols : List (String × SqlValue P))
    (column : String) : Option Int :=
  match lookupKey cols column with
  | some (.int i) => some i
  | _ => none

def tryGetText {P : Type} [DecidableEq P] (cols : List (String × SqlValue P))
    (column : String) : Option String :=
  match lookupKey cols column with
  | some (.text s) => some s
  | _ => none

def tryGetReal {P : Type} [DecidableEq P] (cols : List (String × SqlValue P))
    (column : String) : Option P :=
  match lookupKey cols column with
  | some (.real x) => some x
  | _ => none

/-- `row.try_get::<Option<String>>(name).ok().flatten().and_then(serde_json::from_str).unwrap_or_default()`. -/
def tryGetJsonList {P : Type} [DecidableEq P] (cols : List (String × SqlValue P))
    (column : String) : List String :=
  match lookupKey cols column with
  | some (.jsonList l) => l
  | _ => []

/-- The result columns contributed by `p.*` (the eight `pkg_info` columns). -/
def pkgInfoColumns {P : Type} (p : PkgInfoRow) : List (String × SqlValue P) :=
  [("branch", .text p.branch),
   ("pkg_name", .text p.pkg_name),
   ("pkg_desc", optTextVal p.pkg_desc),
   ("version", .text p.version),
   ("url", optTextVal p.url),
   ("commit_id", .text p.commit_id),
   ("is_listed", .int p.is_listed),
   ("committed_at", optIntVal p.committed_at)]

/-- The supplement columns every search SELECT names (`s.popularity,
s.num_votes, s.out_of_date, s.maintainer, s.submitter, s.first_submitted,
s.last_modified`); with a LEFT JOIN they are all NULL when no supplement row
matched.  The search SELECT does *not* include `s.version`. -/
def searchSupplementColumns {P : Type} :
    Option (DatabaseSupplementData P) → List (String × SqlValue P)
  | none =>
    [("popularity", .null), ("num_votes", .null), ("out_of_date", .null),
     ("maintainer", .null), ("submitter", .null), ("first_submitted", .null),
     ("last_modified", .null)]
  | some s =>
    [("popularity", .real s.popularity), ("num_votes", .int s.num_votes),
     ("out_of_date", optIntVal s.out_of_date), ("maintainer", optTextVal s.maintainer),
     ("submitter", optTextVal s.submitter), ("first_submitted", .int s.first_submitted),
     ("last_modified", .int s.last_modified)]

/-- Result row of the `search_packages` queries (database.rs 396-466):
`SELECT DISTINCT p.*, s.popularity, s.num_votes, s.out_of_date, s.maintainer,
s.submitter, s.first_submitted, s.last_modified`. -/
def searchRowColumns {P : Type} (p : PkgInfoRow) (s : Option (DatabaseSupplementData P)) :
    List (String × SqlValue P) :=
  pkgInfoColumns p ++ searchSupplementColumns s

/-- Result row of the `get_package_details` query (database.rs 524-534):
additionally `s.version as s_version` and the JSON TEXT columns
`s.co_maintainers, s.keywords`. -/
def detailRowColumns {P : Type} (p : PkgInfoRow) (s : Option (DatabaseSupplementData P)) :
    List (String × SqlValue P) :=
  pkgInfoColumns p ++
    (match s with
     | none => [("s_version", (.null : SqlValue P))]
     | some s => [("s_version", .text s.version)]) ++
    searchSupplementColumns s ++
    (match s with
     | none => [("co_maintainers", (.null : SqlValue P)), ("keywords", .null)]
     | some s =>
       [("co_maintainers", .jsonList s.co_maintainers), ("keywords", .jsonList s.keywords)])

/-- `DatabasePackageInfoWithSupplement` (types.rs 103-122). -/
structure DatabasePackageInfoWithSupplement (P : Type) where
  branch : String
  commit_id : String
  committed_at : Int
  pkg_name : String
  pkg_desc : Option String
  version : String
  url : Option String
  popularity : Option P
  num_votes : Option Int
  out_of_date : Option Int
  maintainer : Option String
  submitter : Option String
  first_submitted : Option Int
  last_modified : Option Int
deriving DecidableEq

/-- The row-mapping closure shared (textually duplicated in the source) by
`search_packages` (database.rs 474-507) and `get_package_details`
(database.rs 544-575).  The only textual difference is the column name the
supplement version is read from: `"s.version"` in search, `"s_version"` in
details — passed here as `s_version_col`. -/
def supplementInfoFromRow {P : Type} [DecidableEq P] (s_version_col : String)
    (cols : List (String × SqlValue P)) : DatabasePackageInfoWithSupplement P :=
  let pkg_version := (tryGetText cols "version").getD ""
  let supplement_version := tryGetText cols s_version_col
  let version_matches := (supplement_version.map (fun v => decide (v = pkg_version))).getD false
  { commit_id := (tryGetText cols "commit_id").getD ""
    committed_at := (tryGetInt cols "committed_at").getD 0
    branch := (tryGetText cols "branch").getD ""
    pkg_name := (tryGetText cols "pkg_name").getD ""
    pkg_desc := tryGetText cols "pkg_desc"
    version := pkg_version
    url := tryGetText cols "url"
    popularity := tryGetReal cols "popularity"
    num_votes := tryGetInt cols "num_votes"
    out_of_date := if version_matches then tryGetInt cols "out_of_date" else none
    maintainer := tryGetText cols "maintainer"
    submitter := tryGetText cols "submitter"
    first_submitted := tryGetInt cols "first_submitted"
    last_modified := if version_matches then tryGetInt cols "last_modified" else none }

/-- `SearchType` (types.rs 159-167). -/
inductive SearchType where
  | Name
  | NameDesc
  | Depends
  | MakeDepends
  | OptDepends
  | CheckDepends
deriving DecidableEq

def lowerAsciiChar (c : Char) : Char :=
  if ('A' ≤ c) && (c ≤ 'Z') then Char.ofNat (c.toNat + 32) else c

/-- Does `needle` occur as a contiguous sublist of the argument? -/
def containsSub {α : Type} [BEq α] (needle : List α) : List α → Bool
  | [] => needle.isEmpty
  | c :: rest => needle.isPrefixOf (c :: rest) || containsSub needle rest

/-- SQLite `x LIKE '%kw%'` (default ASCII-case-insensitive containment). -/
def likeContains (kw s : String) : Bool :=
  containsSub (kw.data.map lowerAsciiChar) (s.data.map lowerAsciiChar)

/-- `pkg_supplement`'s PRIMARY KEY is `pkgname`, so the LEFT JOIN
`ON p.pkg_name = s.pkgname` matches at most this one row. -/
def lookupSupplement {P : Type} [DecidableEq P] (db : Db P)
    (pkg_name : String) : Option (DatabaseSupplementData P) :=
  db.pkg_supplement.find? (fun s => decide (s.pkgname = pkg_name))

/-- The WHERE clause of each search mode (plus the relation-table JOIN for
the dependency modes, folded into an existence test — DISTINCT collapses the
join multiplicity). -/
def searchWhere {P : Type} [DecidableEq P] (db : Db P) (t : SearchType) (kw : String)
    (p : PkgInfoRow) : Bool :=
  (match t with
   | .Name => likeContains kw p.pkg_name
   | .NameDesc =>
     likeContains kw p.pkg_name ||
       (match p.pkg_desc with
        | none => false
        | some d => likeContains kw d)
   | .Depends => db.pkg_depends.any
       (fun d => decide (d.pkg_name = p.pkg_name) && decide (d.branch = p.branch) &&
         decide (d.value = kw))
   | .MakeDepends => db.pkg_make_depends.any
       (fun d => decide (d.pkg_name = p.pkg_name) && decide (d.branch = p.branch) &&
         decide (d.value = kw))
   | .OptDepends => db.pkg_opt_depends.any
       (fun d => decide (d.pkg_name = p.pkg_name) && decide (d.branch = p.branch) &&
         decide (d.value = kw))
   | .CheckDepends => db.pkg_check_depends.any
       (fun d => decide (d.pkg_name = p.pkg_name) && decide (d.branch = p.branch) &&
         decide (d.value = kw))) &&
  decide (p.is_listed = 1)

/-- `DatabaseOps::search_packages` (database.rs 390-511): select the matching
`pkg_info` rows, LEFT JOIN the supplement, apply DISTINCT (`eraseDups` on the
result rows), then run the row-mapping closure, which reads the supplement
version from the column name `"s.version"`. -/
def search_packages {P : Type} [DecidableEq P] (db : Db P) (t : SearchType)
    (kw : String) : List (DatabasePackageInfoWithSupplement P) :=
  ((((db.pkg_info.filter (searchWhere db t kw)).map
      (fun p => searchRowColumns p (lookupSupplement db p.pkg_name))).eraseDups).map
    (supplementInfoFromRow "s.version"))

/-- `DatabasePackageDetailsWithSupplement` (types.rs 124-138). -/
structure DatabasePackageDetailsWithSupplement (P : Type) where
  info : DatabasePackageInfoWithSupplement P
  depends : List String
  make_depends : List String
  opt_depends : List String
  check_depends : List String
  provides : List String
  conflicts : List String
  replaces : List String
  groups : List String
  keywords : List String
  co_maintainers : List String
deriving DecidableEq

/-- `SELECT value FROM table WHERE pkg_name = ? AND branch = ?`. -/
def relValues (table : List RelRow) (pkg_name branch : String) : List String :=
  (table.filter (fun r => decide (r.pkg_name = pkg_name) && decide (r.branch = branch))).map
    (fun r => r.value)

/-- `DatabaseOps::get_package_details` (database.rs 513-659): empty input
short-circuits; otherwise select listed `pkg_info` rows whose name is in the
list, LEFT JOIN the supplement (reading its version via the `s_version`
alias), and pull the eight relation lists plus the JSON list columns. -/
def get_package_details {P : Type} [DecidableEq P] (db : Db P)
    (package_names : List String) : List (DatabasePackageDetailsWithSupplement P) :=
  if package_names.isEmpty then []
  else
    (db.pkg_info.filter
        (fun p => package_names.contains p.pkg_name && decide (p.is_listed = 1))).map
      (fun p =>
        let s := lookupSupplement db p.pkg_name
        let cols := detailRowColumns p s
        { info := supplementInfoFromRow "s_version" cols
          depends := relValues db.pkg_depends p.pkg_name p.branch
          make_depends := relValues db.pkg_make_depends p.pkg_name p.branch
          opt_depends := relValues db.pkg_opt_depends p.pkg_name p.branch
          check_depends := relValues db.pkg_check_depends p.pkg_name p.branch
          provides := relValues db.pkg_provides p.pkg_name p.branch
          conflicts := relValues db.pkg_conflicts p.pkg_name p.branch
          replaces := relValues db.pkg_replaces p.pkg_name p.branch
          groups := relValues db.pkg_groups p.pkg_name p.branch
          keywords := tryGetJsonList cols "keywords"
          co_maintainers := tryGetJsonList cols "co_maintainers" })

/-! ### Schema versioning (`check_and_migrate`, database.rs 32-91)

The persistent file is embedded with its `user_version` pragma and one
`Option` per table (`none` = the table does not exist).  `DROP TABLE IF
EXISTS` sets a table to `none`; `CREATE TABLE IF NOT EXISTS` turns `none`
into `some []` and leaves existing rows alone. -/

structure SqliteFile (P : Type) where
  user_version : Int
  branch_commits : Option (List (String × String))
  pkg_info : Option (List PkgInfoRow)
  pkg_depends : Option (List RelRow)
  pkg_make_depends : Option (List RelRow)
  pkg_opt_depends : Option (List RelRow)
  pkg_check_depends : Option (List RelRow)
  pkg_provides : Option (List RelRow)
  pkg_conflicts : Option (List RelRow)
  pkg_replaces : Option (List RelRow)
  pkg_groups : Option (List RelRow)
  pkg_supplement : Option (List (DatabaseSupplementData P))
deriving DecidableEq

def CURRENT_DB_VERSION : Int := 2

/-- The version match at database.rs 38-56: a stored 0 with an existing
`pkg_info` table is the legacy pre-pragma version 1. -/
def effectiveVersion {P : Type} (f : SqliteFile P) : Int :=
  if f.user_version = 0 then
    if f.pkg_info.isSome then 1 else 0
  else f.user_version

/-- `DROP TABLE IF EXISTS` over the eleven data tables (database.rs 64-82);
the version cell (`user_version`) is untouched. -/
def dropAllTables {P : Type} (f : SqliteFile P) : SqliteFile P :=
  { f with
    branch_commits := none, pkg_info := none, pkg_depends := none,
    pkg_make_depends := none, pkg_opt_depends := none, pkg_check_depends := none,
    pkg_provides := none, pkg_conflicts := none, pkg_replaces := none,
    pkg_groups := none, pkg_supplement := none }

/-- `DatabaseOps::check_and_migrate` (database.rs 32-91). -/
def check_and_migrate {P : Type} (f : SqliteFile P) : SqliteFile P :=
  let version := effectiveVersion f
  if version < CURRENT_DB_VERSION then
    let f1 := if version > 0 then dropAllTables f else f
    { f1 with user_version := CURRENT_DB_VERSION }
  else f

def createIfNotExists {α : Type} : Option (List α) → Option (List α)
  | none => some []
  | some rows => some rows

/-- `DatabaseOps::init_index_tables` (database.rs 93-202): `CREATE TABLE IF
NOT EXISTS` for each table (indexes carry no row state). -/
def init_index_tables {P : Type} (f : SqliteFile P) : SqliteFile P :=
  { f with
    branch_commits := createIfNotExists f.branch_commits
    pkg_info := createIfNotExists f.pkg_info
    pkg_depends := createIfNotExists f.pkg_depends
    pkg_make_depends := createIfNotExists f.pkg_make_depends
    pkg_opt_depends := createIfNotExists f.pkg_opt_depends
    pkg_check_depends := createIfNotExists f.pkg_check_depends
    pkg_provides := createIfNotExists f.pkg_provides
    pkg_conflicts := createIfNotExists f.pkg_conflicts
    pkg_replaces := createIfNotExists f.pkg_replaces
    pkg_groups := createIfNotExists f.pkg_groups
    pkg_supplement := createIfNotExists f.pkg_supplement }

/-- `DatabaseOps::new` (database.rs 19-30): migrate, then create tables. -/
def database_new {P : Type} (f : SqliteFile P) : SqliteFile P :=
  init_index_tables (check_and_migrate f)

/-- All eleven data tables exist and hold no rows. -/
def DataTablesEmpty {P : Type} (f : SqliteFile P) : Prop :=
  f.branch_commits = some [] ∧ f.pkg_info = some [] ∧ f.pkg_depends = some [] ∧
  f.pkg_make_depends = some [] ∧ f.pkg_opt_depends = some [] ∧
  f.pkg_check_depends = some [] ∧ f.pkg_provides = some [] ∧
  f.pkg_conflicts = some [] ∧ f.pkg_replaces = some [] ∧
  f.pkg_groups = some [] ∧ f.pkg_supplement = some []

/-- A store just created by `create_if_missing`: version 0, no tables. -/
def FreshStore {P : Type} (f : SqliteFile P) : Prop :=
  f.user_version = 0 ∧ f.branch_commits = none ∧ f.pkg_info = none ∧
  f.pkg_depends = none ∧ f.pkg_make_depends = none ∧ f.pkg_opt_depends = none ∧
  f.pkg_check_depends = none ∧ f.pkg_provides = none ∧ f.pkg_conflicts = none ∧
  f.pkg_replaces = none ∧ f.pkg_groups = none ∧ f.pkg_supplement = none

/-- A store written by schema version 1 — either the pragma says 1, or the
legacy pre-pragma layout (version cell 0 but `pkg_info` exists). -/
def LegacyStore {P : Type} (f : SqliteFile P) : Prop :=
  f.user_version = 1 ∨ (f.user_version = 0 ∧ f.pkg_info.isSome)

def CurrentStore {P : Type} (f : SqliteFile P) : Prop :=
  f.user_version = CURRENT_DB_VERSION

/-! ### Supplement ingestion (`store_supplement_data` /
`update_is_listed_status`, database.rs 670-742)

`store_supplement_data` short-circuits on an empty batch; otherwise it runs
one transaction that clears `pkg_supplement` and inserts every record, then
commits and recomputes `is_listed`.  A failure inside the transaction drops
the `sqlx::Transaction` without commit, which rolls everything back — the
pre-call state survives.  The per-insert failure possibility (an I/O or
serialization error on the `i`-th INSERT) is an oracle `insertErr : Nat →
Bool`. -/

/-- `INSERT OR REPLACE INTO pkg_supplement`: replace by primary key `pkgname`. -/
def insertOrReplaceSupp {P : Type} [DecidableEq P] (s : DatabaseSupplementData P)
    (rows : List (DatabaseSupplementData P)) : List (DatabaseSupplementData P) :=
  (rows.filter (fun t => !decide (t.pkgname = s.pkgname))) ++ [s]

/-- The insert loop of the clearing transaction, from row index `i` with the
rows accumulated so far (the DELETE means it starts from `[]`). -/
def runSupplementInserts {P : Type} [DecidableEq P] (insertErr : Nat → Bool) :
    Nat → List (DatabaseSupplementData P) → List (DatabaseSupplementData P) →
    Option (List (DatabaseSupplementData P))
  | _, acc, [] => some acc
  | i, acc, s :: rest =>
    if insertErr i then none
    else runSupplementInserts insertErr (i + 1) (insertOrReplaceSupp s acc) rest

def sqlMaxInt : List Int → Option Int
  | [] => none
  | x :: xs =>
    match sqlMaxInt xs with
    | none => some x
    | some m => some (max x m)

/-- The CASE expression of the UPDATE at database.rs 726-738. -/
def relistRow {P : Type} [DecidableEq P] (supp : List (DatabaseSupplementData P))
    (threshold : Int) (r : PkgInfoRow) : PkgInfoRow :=
  { r with
    is_listed :=
      if supp.any (fun s => decide (s.pkgname = r.pkg_name)) then 1
      else
        match r.committed_at with
        | some c => if c < threshold then 0 else 1
        | none => 1 }

/-- `DatabaseOps::update_is_listed_status` (database.rs 713-742): `T` is
`MAX(last_modified)` over the stored supplement rows (NULL — no rows — skips
the UPDATE); the threshold is `T - 86400`. -/
def update_is_listed_status {P : Type} [DecidableEq P] (db : Db P) : Db P :=
  match sqlMaxInt (db.pkg_supplement.map (fun s => s.last_modified)) with
  | none => db
  | some max_last_modified =>
    { db with
      pkg_info := db.pkg_info.map (relistRow db.pkg_supplement (max_last_modified - 86400)) }

/-- `DatabaseOps::store_supplement_data` (database.rs 670-711).  Returns the
resulting store and whether the call succeeded. -/
def store_supplement_data {P : Type} [DecidableEq P] (db : Db P)
    (supplements : List (DatabaseSupplementData P)) (insertErr : Nat → Bool) :
    Db P × Bool :=
  if supplements.isEmpty then (db, true)
  else
    match runSupplementInserts insertErr 0 [] supplements with
    | none => (db, false)
    | some rows =>
      (update_is_listed_status { db with pkg_supplement := rows }, true)

/-! ### Claims C1, C3, C8, C10 -/

def exDb1 : Db Int :=
  { branch_commits := []
    pkg_info := [{ branch := "p", pkg_name := "p", pkg_desc := none, version := "1",
                   url := none, commit_id := "c0", is_listed := 1, committed_at := some 500000 }]
    pkg_depends := [], pkg_make_depends := [], pkg_opt_depends := [], pkg_check_depends := []
    pkg_provides := [], pkg_conflicts := [], pkg_replaces := [], pkg_groups := []
    pkg_supplement := [{ pkgname := "p", version := "1", popularity := 5, num_votes := 3,
                         out_of_date := some 42, maintainer := some "m", submitter := none,
                         co_maintainers := [], keywords := [], first_submitted := 1,
                         last_modified := 77 }] }

/-- C1: the claim — and the code's own comment "Apply the logic from the
spec: use time-sensitive fields only if version matches" — requires both
`search_packages` and `get_package_details` to surface `out_of_date` /
`last_modified` exactly when the supplement version equals the package
version.  The code violates it in `search_packages`: the closure reads the
supplement version via `row.try_get("s.version")` (database.rs 477), but the
search SELECT never produces a column of that name, so `version_matches` is
always false there.  Here the package and supplement versions are both
`"1"`, yet the search result carries `out_of_date = none` and
`last_modified = none` (while surfacing the version-independent
`popularity`/`num_votes`); the details path, which aliases `s.version as
s_version`, surfaces `some 42` / `some 77` as the claim demands. -/
theorem c1_search_version_gate_code_bug :
    (exDb1.pkg_supplement.map (fun s => (s.pkgname, s.version)) = [("p", "1")] ∧
     exDb1.pkg_info.map (fun p => (p.pkg_name, p.version)) = [("p", "1")]) ∧
    (search_packages exDb1 .Name "p").map
        (fun r => (r.out_of_date, r.last_modified, r.popularity, r.num_votes)) =
      [(none, none, some 5, some 3)] ∧
    (get_package_details exDb1 ["p"]).map
        (fun r => (r.info.out_of_date, r.info.last_modified)) =
      [(some 42, some 77)] := by
  refine ⟨⟨?_, ?_⟩, ?_, ?_⟩ <;> decide

/-- C3: after `DatabaseOps::new` (migrate + create) succeeds on a fresh,
legacy, or current store, the persisted schema version equals
`CURRENT_DB_VERSION`; a stored version 0 with an existing `pkg_info` table is
treated as legacy version 1 (and fully reset); and whenever the stored
version is below the current one, every data table of the resulting store is
empty — no pre-migration rows survive. -/
theorem c3_check_and_migrate_resets {P : Type} (f : SqliteFile P)
    (h : FreshStore f ∨ LegacyStore f ∨ CurrentStore f) :
    (database_new f).user_version = CURRENT_DB_VERSION ∧
    (f.user_version = 0 → f.pkg_info.isSome →
      effectiveVersion f = 1 ∧ DataTablesEmpty (database_new f)) ∧
    (f.user_version < CURRENT_DB_VERSION → DataTablesEmpty (database_new f)) := by
  rcases h with hF | hL | hC
  · obtain ⟨h0, hbc, hpi, hd, hmd, hod, hcd, hpv, hcf, hrp, hgr, hsp⟩ := hF
    refine ⟨?_, ?_, ?_⟩ <;>
      simp [database_new, check_and_migrate, init_index_tables, effectiveVersion,
        createIfNotExists, DataTablesEmpty, CURRENT_DB_VERSION,
        h0, hbc, hpi, hd, hmd, hod, hcd, hpv, hcf, hrp, hgr, hsp]
  · rcases hL with h1 | ⟨h0, hsome⟩
    · refine ⟨?_, ?_, ?_⟩ <;>
        simp [database_new, check_and_migrate, init_index_tables, effectiveVersion,
          dropAllTables, createIfNotExists, DataTablesEmpty, CURRENT_DB_VERSION, h1]
    · refine ⟨?_, ?_, ?_⟩ <;>
        simp [database_new, check_and_migrate, init_index_tables, effectiveVersion,
          dropAllTables, createIfNotExists, DataTablesEmpty, CURRENT_DB_VERSION, h0, hsome]
  · simp only [CurrentStore, CURRENT_DB_VERSION] at hC
    refine ⟨?_, ?_, ?_⟩ <;>
      simp [database_new, check_and_migrate, init_index_tables, effectiveVersion,
        createIfNotExists, CURRENT_DB_VERSION, hC]

def exLegacyFile : SqliteFile Int :=
  { user_version := 0
    branch_commits := some [("b", "c0")]
    pkg_info := some [{ branch := "b", pkg_name := "p", pkg_desc := none, version := "1",
                        url := none, commit_id := "c0", is_listed := 1,
                        committed_at := some 1 }]
    pkg_depends := some [{ branch := "b", pkg_name := "p", value := "dep" }]
    pkg_make_depends := some [], pkg_opt_depends := some [], pkg_check_depends := some []
    pkg_provides := some [], pkg_conflicts := some [], pkg_replaces := some []
    pkg_groups := some [], pkg_supplement := none }

/-- C3 witness: the migration theorem on a concrete legacy store (version
cell 0, `pkg_info` exists, rows present): the reopened store is at the
current version with every data table empty. -/
theorem c3_check_and_migrate_resets_witness :
    LegacyStore exLegacyFile ∧
    (database_new exLegacyFile).user_version = CURRENT_DB_VERSION ∧
    DataTablesEmpty (database_new exLegacyFile) :=
  have h := c3_check_and_migrate_resets exLegacyFile
    (Or.inr (Or.inl (Or.inr ⟨rfl, by decide⟩)))
  ⟨Or.inr ⟨rfl, by decide⟩, h.1, h.2.2 (by decide)⟩

def mkSupp (pkgname version : String) (lm : Int) : DatabaseSupplementData Int :=
  { pkgname := pkgname, version := version, popularity := 0, num_votes := 0,
    out_of_date := none, maintainer := none, submitter := none, co_maintainers := [],
    keywords := [], first_submitted := 0, last_modified := lm }

def exDbPrev : Db Int :=
  { branch_commits := [], pkg_info := [], pkg_depends := [], pkg_make_depends := []
    pkg_opt_depends := [], pkg_check_depends := [], pkg_provides := [], pkg_conflicts := []
    pkg_replaces := [], pkg_groups := [], pkg_supplement := [mkSupp "old" "1" 10] }

/-- C8 counterexample: the claim says that once clearing has begun, a failed
insert leaves `pkg_supplement` empty until the next refresh.  On the code,
the DELETE and the INSERTs share one transaction; when the second insert
fails (insert index 1), the transaction is dropped without commit and rolled
back, so the previous row `"old"` survives — the table is *not* empty. -/
theorem c8_failed_insert_counterexample :
    store_supplement_data exDbPrev [mkSupp "new1" "1" 20, mkSupp "new2" "1" 30]
        (fun i => decide (i = 1)) = (exDbPrev, false) ∧
    exDbPrev.pkg_supplement ≠ [] := by
  refine ⟨?_, ?_⟩ <;> decide

/-- C8 amended: if `store_supplement_data` fails at any point — including
after the clearing of `pkg_supplement` has begun, since the DELETE and all
INSERTs run inside a single transaction that is rolled back on failure — the
store is unchanged: previously stored supplement rows survive every failed
call, and are replaced only when the transaction commits. -/
theorem c8_failure_rolls_back {P : Type} [DecidableEq P] (db : Db P)
    (supplements : List (DatabaseSupplementData P)) (insertErr : Nat → Bool) (db' : Db P)
    (h : store_supplement_data db supplements insertErr = (db', false)) :
    db' = db := by
  unfold store_supplement_data at h
  by_cases he : supplements.isEmpty
  · rw [if_pos he] at h
    simp at h
  · rw [if_neg he] at h
    cases hrun : runSupplementInserts insertErr 0 ([] : List (DatabaseSupplementData P))
        supplements with
    | none =>
      rw [hrun] at h
      exact (Prod.mk.injEq _ _ _ _ ▸ h).1.symm
    | some rows =>
      rw [hrun] at h
      simp at h

/-- C8 witness: the rollback theorem at the concrete failing call. -/
theorem c8_failure_rolls_back_witness :
    store_supplement_data exDbPrev [mkSupp "new1" "1" 20, mkSupp "new2" "1" 30]
        (fun i => decide (i = 1)) = (exDbPrev, false) ∧
    exDbPrev = exDbPrev :=
  ⟨by decide,
    c8_failure_rolls_back exDbPrev [mkSupp "new1" "1" 20, mkSupp "new2" "1" 30]
      (fun i => decide (i = 1)) exDbPrev (by decide)⟩

/-- C10: calling `store_supplement_data` with an empty record list returns
success without touching any state: the early return fires before the
transaction, so `pkg_supplement` is not cleared and `update_is_listed_status`
never runs — the whole store (including every `is_listed` flag) is returned
unchanged. -/
theorem c10_store_supplement_data_empty_noop {P : Type} [DecidableEq P]
    (db : Db P) (insertErr : Nat → Bool) :
    store_supplement_data db [] insertErr = (db, true) := rfl

/-! ### Claim C4 -/

theorem runSupplementInserts_cons_ne_nil {P : Type} [DecidableEq P] (insertErr : Nat → Bool) :
    ∀ (rest : List (DatabaseSupplementData P)) (s : DatabaseSupplementData P)
      (i : Nat) (acc rows : List (DatabaseSupplementData P)),
      runSupplementInserts insertErr i acc (s :: rest) = some rows → rows ≠ [] := by
  intro rest
  induction rest with
  | nil =>
    intro s i acc rows h
    simp only [runSupplementInserts] at h
    by_cases he : insertErr i
    · rw [if_pos he] at h; cases h
    · rw [if_neg he] at h
      cases h
      simp [insertOrReplaceSupp]
  | cons t ts ih =>
    intro s i acc rows h
    simp only [runSupplementInserts] at h
    by_cases he : insertErr i
    · rw [if_pos he] at h; cases h
    · rw [if_neg he] at h
      exact ih t (i + 1) (insertOrReplaceSupp s acc) rows h

/-- C4: after supplement ingestion succeeds on a nonempty batch, with `T` the
maximum `last_modified` over the stored supplement rows, every `pkg_info` row
(with a non-NULL `committed_at`, as every row written by `update_index_with_tx`
has) is listed (`is_listed = 1`) iff its name appears among the stored
supplement names or its `committed_at` is at least `T - 86400`, and unlisted
(`is_listed = 0`) exactly otherwise. -/
theorem c4_is_listed_after_ingestion {P : Type} [DecidableEq P]
    (db : Db P) (supplements : List (DatabaseSupplementData P)) (insertErr : Nat → Bool)
    (db' : Db P) (T : Int) (r : PkgInfoRow) (c : Int)
    (hne : supplements ≠ [])
    (hok : store_supplement_data db supplements insertErr = (db', true))
    (hT : sqlMaxInt (db'.pkg_supplement.map (fun s => s.last_modified)) = some T)
    (hr : r ∈ db'.pkg_info) (hc : r.committed_at = some c) :
    (r.is_listed = 1 ↔
      ((∃ s ∈ db'.pkg_supplement, s.pkgname = r.pkg_name) ∨ T - 86400 ≤ c)) ∧
    (r.is_listed = 0 ↔
      ¬((∃ s ∈ db'.pkg_supplement, s.pkgname = r.pkg_name) ∨ T - 86400 ≤ c)) := by
  obtain ⟨s0, rest0, rfl⟩ : ∃ a as, supplements = a :: as := by
    cases supplements with
    | nil => exact absurd rfl hne
    | cons a as => exact ⟨a, as, rfl⟩
  unfold store_supplement_data at hok
  rw [if_neg (by simp)] at hok
  cases hrun : runSupplementInserts insertErr 0 ([] : List (DatabaseSupplementData P))
      (s0 :: rest0) with
  | none => rw [hrun] at hok; simp at hok
  | some rows =>
    rw [hrun] at hok
    have hdb' : update_is_listed_status { db with pkg_supplement := rows } = db' := by
      have := (Prod.mk.injEq _ _ _ _).mp hok
      exact this.1
    have hrows : rows ≠ [] :=
      runSupplementInserts_cons_ne_nil insertErr rest0 s0 0 [] rows hrun
    obtain ⟨m, hm⟩ : ∃ m, sqlMaxInt (rows.map (fun s => s.last_modified)) = some m := by
      cases hx : rows.map (fun s => s.last_modified) with
      | nil => exact absurd (List.map_eq_nil.mp hx) hrows
      | cons x xs =>
        simp only [sqlMaxInt]
        cases sqlMaxInt xs with
        | none => exact ⟨x, rfl⟩
        | some y => exact ⟨max x y, rfl⟩
    rw [← hdb'] at hT hr ⊢
    simp only [update_is_listed_status, hm] at hT hr ⊢
    have hTm : T = m := by
      cases hT
      rfl
    subst hTm
    obtain ⟨r0, hr0, rfl⟩ := List.mem_map.mp hr
    simp only [relistRow] at hc ⊢
    by_cases hin : rows.any (fun s => decide (s.pkgname = r0.pkg_name)) = true
    · have hex : ∃ s ∈ rows, s.pkgname = r0.pkg_name := by
        obtain ⟨s, hs, hdec⟩ := List.any_eq_true.mp hin
        exact ⟨s, hs, of_decide_eq_true hdec⟩
      rw [if_pos hin]
      constructor
      · exact iff_of_true rfl (Or.inl hex)
      · exact iff_of_false (by decide) (fun hn => hn (Or.inl hex))
    · have hnex : ¬∃ s ∈ rows, s.pkgname = r0.pkg_name := by
        intro hex
        obtain ⟨s, hs, he⟩ := hex
        exact hin (List.any_eq_true.mpr ⟨s, hs, decide_eq_true he⟩)
      rw [if_neg hin, hc]
      have hred : (match some c with
          | some c => if c < T - 86400 then (0 : Int) else 1
          | none => 1) = if c < T - 86400 then (0 : Int) else 1 := rfl
      rw [hred]
      by_cases hcl : c < T - 86400
      · rw [if_pos hcl]
        constructor
        · refine iff_of_false (by decide) ?_
          rintro (hex | hle)
          · exact hnex hex
          · omega
        · refine iff_of_true rfl ?_
          rintro (hex | hle)
          · exact hnex hex
          · omega
      · rw [if_neg hcl]
        constructor
        · exact iff_of_true rfl (Or.inr (by omega))
        · exact iff_of_false (by decide) (fun hn => hn (Or.inr (by omega)))

def exNoErr : Nat → Bool := fun _ => false

def exSupps4 : List (DatabaseSupplementData Int) :=
  [mkSupp "inlist" "1" 100000, mkSupp "other" "1" 90000]

def exDb4 : Db Int :=
  { branch_commits := [], pkg_info :=
      [{ branch := "b", pkg_name := "inlist", pkg_desc := none, version := "1",
         url := none, commit_id := "c1", is_listed := 1, committed_at := some 5 },
       { branch := "b", pkg_name := "stale", pkg_desc := none, version := "1",
         url := none, commit_id := "c2", is_listed := 1, committed_at := some 13599 },
       { branch := "b", pkg_name := "fresh", pkg_desc := none, version := "1",
         url := none, commit_id := "c3", is_listed := 0, committed_at := some 13600 }]
    pkg_depends := [], pkg_make_depends := [], pkg_opt_depends := [], pkg_check_depends := []
    pkg_provides := [], pkg_conflicts := [], pkg_replaces := [], pkg_groups := []
    pkg_supplement := [] }

def exStaleRow : PkgInfoRow :=
  { branch := "b", pkg_name := "stale", pkg_desc := none, version := "1",
    url := none, commit_id := "c2", is_listed := 0, committed_at := some 13599 }

/-- C4 witness: on a concrete ingestion (max `last_modified` 100000, so
threshold 13600), the row named `"stale"` with `committed_at = 13599` — not
in the supplement — ends up with `is_listed = 0`, matching both directions of
the theorem. -/
theorem c4_is_listed_after_ingestion_witness :
    (exSupps4 ≠ [] ∧
     store_supplement_data exDb4 exSupps4 exNoErr =
       ((store_supplement_data exDb4 exSupps4 exNoErr).1, true) ∧
     sqlMaxInt ((store_supplement_data exDb4 exSupps4 exNoErr).1.pkg_supplement.map
       (fun s => s.last_modified)) = some 100000 ∧
     exStaleRow ∈ (store_supplement_data exDb4 exSupps4 exNoErr).1.pkg_info ∧
     exStaleRow.committed_at = some 13599) ∧
    ((exStaleRow.is_listed = 1 ↔
        ((∃ s ∈ (store_supplement_data exDb4 exSupps4 exNoErr).1.pkg_supplement,
            s.pkgname = exStaleRow.pkg_name) ∨ (100000 : Int) - 86400 ≤ (13599 : Int))) ∧
     (exStaleRow.is_listed = 0 ↔
        ¬((∃ s ∈ (store_supplement_data exDb4 exSupps4 exNoErr).1.pkg_supplement,
            s.pkgname = exStaleRow.pkg_name) ∨ (100000 : Int) - 86400 ≤ (13599 : Int)))) :=
  ⟨⟨by decide, by decide, by decide, by decide, by decide⟩,
    c4_is_listed_after_ingestion exDb4 exSupps4 exNoErr
      (store_supplement_data exDb4 exSupps4 exNoErr).1 100000 exStaleRow 13599
      (by decide) (by decide) (by decide) (by decide) (by decide)⟩

end AurMirrorMeta
